import Mathlib

set_option maxRecDepth 40000

/-!
Formal model of the PR verification & repair pipeline (`process_pr.py`).

The pipeline's externally visible behaviour is modelled as pure functions
over oracles describing the outcomes of external commands:

* `rebase_and_push` — the rebase-then-merge-fallback sync engine, as a
  function of an oracle `git : GitCmd → Bool` giving each git command's
  success.  It returns the ordered trace of git commands invoked and
  either `Except.error ()` (an uncaught `CalledProcessError` propagating
  out of the function — the `git fetch origin leader` call is made with
  `check=True`) or `Except.ok is_git_clean` (the Python return value:
  `true` = clean, `false` = conflicts committed).  Commands invoked with
  `check=False` (rebase abort, add, commit, all pushes) appear in the
  trace but their oracle outcome is never consulted, mirroring the source.
* `run_checks` — the fail-fast verification runner over the fixed
  `checks` list, as a function of an oracle `exec : CheckSpec → ProcResult`
  giving each check's captured process result.  The `except` arm in the
  source is unreachable (`run` is called with `check=False`, which never
  raises `CalledProcessError`), so only the normal arm is modelled.
* `post_pr_comment_body` — the markdown report body.
* `jules_prompt` / `trigger_jules_fix` — the remediation dispatch.
* `mainRun` — the orchestrator `main()`, returning either
  `RunEnd.exitNonzero` (a `sys.exit(1)` or an uncaught exception) or
  `RunEnd.reported body` (the comment body posted, process exits zero).

The regular-expression heuristics of the runner are embedded as
executable matchers over `List Char`, restricted to ASCII text (Python's
`\d`/`\s` classes are modelled by their ASCII subsets, `.lower()` by
ASCII lowercasing).
-/

/-- The git commands invoked by `rebase_and_push` (process_pr.py lines
171-240), identified by their role. -/
inductive GitCmd where
  | fetchLeader
  | rebase
  | rebaseAbort
  | merge
  | addAll
  | commitConflicts
  | pushForce
deriving DecidableEq

/-- The argv of each git command, exactly as built in the source
(the push interpolates the branch name). -/
def cmdArgs (branch : String) : GitCmd → List String
  | .fetchLeader => ["git", "fetch", "origin", "leader"]
  | .rebase => ["git", "rebase", "origin/leader"]
  | .rebaseAbort => ["git", "rebase", "--abort"]
  | .merge => ["git", "merge", "origin/leader"]
  | .addAll => ["git", "add", "."]
  | .commitConflicts =>
      ["git", "commit", "-m", "Merge origin/leader (with unresolved conflicts)"]
  | .pushForce => ["git", "push", "origin", branch, "--force"]

/-- Result of one call to `rebase_and_push`: the ordered trace of git
commands invoked, and either `error ()` (uncaught exception) or
`ok is_git_clean` (the returned boolean). -/
structure SyncResult where
  trace : List GitCmd
  outcome : Except Unit Bool

/-- `rebase_and_push(worktree_path, branch_name)` (process_pr.py 164-240).

Control flow from the source:
* `git fetch origin leader` runs with `check=True`: on failure the
  exception propagates out (`error ()`).
* `git rebase origin/leader` runs inside `try` with `check=True`: on
  success the branch is force-pushed (`check=False`) and `True` returned.
* On rebase failure: `git rebase --abort` (`check=False`, outcome
  ignored), then `git merge origin/leader` inside `try`.  On merge
  success, fall through to the final force-push and return `True`.
* On merge failure: `git add .`, `git commit -m ...`, force-push (each
  `check=False`, outcomes ignored) and return `False`. -/
def rebase_and_push (git : GitCmd → Bool) : SyncResult :=
  if git GitCmd.fetchLeader = false then
    { trace := [GitCmd.fetchLeader], outcome := Except.error () }
  else if git GitCmd.rebase then
    { trace := [GitCmd.fetchLeader, GitCmd.rebase, GitCmd.pushForce],
      outcome := Except.ok true }
  else if git GitCmd.merge then
    { trace := [GitCmd.fetchLeader, GitCmd.rebase, GitCmd.rebaseAbort,
                GitCmd.merge, GitCmd.pushForce],
      outcome := Except.ok true }
  else
    { trace := [GitCmd.fetchLeader, GitCmd.rebase, GitCmd.rebaseAbort,
                GitCmd.merge, GitCmd.addAll, GitCmd.commitConflicts,
                GitCmd.pushForce],
      outcome := Except.ok false }

/-- One entry of the `checks` table in `run_checks` (name and argv). -/
structure CheckSpec where
  name : String
  cmd : List String
deriving DecidableEq

/-- The fixed ordered check list of `run_checks` (process_pr.py 248-256). -/
def checks : List CheckSpec :=
  [⟨"Lint", ["npm", "run", "lint"]⟩,
   ⟨"Build", ["npm", "run", "build"]⟩,
   ⟨"Unit Tests", ["npm", "run", "test", "--", "--ci"]⟩,
   ⟨"Visual Tests", ["npm", "run", "test:visual", "--", "--reporter=list"]⟩]

/-- The captured result of running one check's command: exit code,
merged stdout/stderr text, and the measured duration already formatted
as in `round(time.time() - start_time, 2)`. -/
structure ProcResult where
  returncode : Int
  stdout : String
  duration : String
deriving DecidableEq

/-- Python `str.lower()`, restricted to ASCII: lowercase every
character. -/
def pyLower (s : String) : String := String.mk (s.data.map Char.toLower)

/-- ASCII digit, modelling Python regex `\d` on ASCII text. -/
def isAsciiDigit (c : Char) : Bool := decide ('0' ≤ c) && decide (c ≤ '9')

/-- ASCII whitespace, modelling Python regex `\s` on ASCII text. -/
def isPySpace (c : Char) : Bool :=
  c == ' ' || c == '\t' || c == '\n' || c == '\r' ||
    c == Char.ofNat 11 || c == Char.ofNat 12

/-- Consume one-or-more characters satisfying `p` (regex `p+` where the
following pattern piece is disjoint from `p`, so greedy = existential). -/
def takeOneOrMore (p : Char → Bool) : List Char → Option (List Char)
  | [] => none
  | c :: rest => if p c then some (rest.dropWhile p) else none

/-- Does `\d+\s+failed` match at the head of `l`? -/
def dwfAt (l : List Char) : Bool :=
  match takeOneOrMore isAsciiDigit l with
  | none => false
  | some l1 =>
    match takeOneOrMore isPySpace l1 with
    | none => false
    | some l2 => List.isPrefixOf ("failed".data) l2

/-- `re.search(r"\d+\s+failed", l)`: match at some position of `l`. -/
def dwfSearch : List Char → Bool
  | [] => false
  | c :: rest => dwfAt (c :: rest) || dwfSearch rest

/-- Consume the literal `lit` at the head of `l`. -/
def dropLit (lit l : List Char) : Option (List Char) :=
  if List.isPrefixOf lit l then some (l.drop lit.length) else none

/-- Regex `.*\d+\s+failed` matching at the head of `l`
(`.` does not match a newline; existential over the `.*` split). -/
def dotStarThenDWF : List Char → Bool
  | [] => false
  | c :: rest => dwfAt (c :: rest) || (decide (c ≠ '\n') && dotStarThenDWF rest)

/-- Does `test suites?:.*\d+\s+failed` match at the head of `l`? -/
def jestAt (l : List Char) : Bool :=
  match dropLit ("test suite".data) l with
  | none => false
  | some l1 =>
    match l1 with
    | 's' :: ':' :: l2 => dotStarThenDWF l2
    | ':' :: l2 => dotStarThenDWF l2
    | _ => false

/-- `re.search(r"test suites?:.*\d+\s+failed", l)`. -/
def jestSearch : List Char → Bool
  | [] => false
  | c :: rest => jestAt (c :: rest) || jestSearch rest

/-- The per-check textual failure heuristic of `run_checks`
(process_pr.py 286-299), applied to the lowercased captured output:
Playwright (`Visual Tests`) looks for `\d+\s+failed`; Jest
(`Unit Tests`) looks for `test suites?:.*\d+\s+failed`; lint and build
have no textual pattern (exit code only). -/
def failurePattern (c : CheckSpec) (outputLower : String) : Bool :=
  if c.name = "Visual Tests" then dwfSearch outputLower.data
  else if c.name = "Unit Tests" then jestSearch outputLower.data
  else false

/-- The pass/fail classification of one check (process_pr.py 283-303):
`test_failed` is set when the check-specific pattern matches the
lowercased output, and also when the exit code is nonzero. -/
def classify (c : CheckSpec) (p : ProcResult) : Bool :=
  let outputLower := pyLower p.stdout
  if c.name = "Visual Tests" then
    dwfSearch outputLower.data || p.returncode != 0
  else if c.name = "Unit Tests" then
    jestSearch outputLower.data || p.returncode != 0
  else
    p.returncode != 0

/-- The log attached on failure: `proc.stdout if proc.stdout else
"No output captured"` (empty string is falsy in Python). -/
def logOf (p : ProcResult) : String :=
  if p.stdout = "" then "No output captured" else p.stdout

/-- One row appended to `results` in `run_checks`. -/
structure CheckRow where
  name : String
  status : String
  duration : String
deriving DecidableEq

/-- The failure context dict built by `run_checks` and `main`. -/
structure FailureDetail where
  step : String
  cmd : String
  log : String
deriving DecidableEq

/-- The loop body of `run_checks` over a list of remaining checks:
classify each check in order; on the first failure record a `[FAIL]`
row plus the failure details and stop (`break`); otherwise record a
`[PASS]` row and continue. -/
def runChecksFrom (exec : CheckSpec → ProcResult) :
    List CheckSpec → List CheckRow × Option FailureDetail
  | [] => ([], none)
  | c :: rest =>
    let p := exec c
    if classify c p then
      ([⟨c.name, "[FAIL]", p.duration ++ "s"⟩],
       some ⟨c.name, String.intercalate " " c.cmd, logOf p⟩)
    else
      let r := runChecksFrom exec rest
      (⟨c.name, "[PASS]", p.duration ++ "s"⟩ :: r.1, r.2)

/-- `run_checks(worktree_path)` (process_pr.py 243-350) over the fixed
check list. -/
def run_checks (exec : CheckSpec → ProcResult) :
    List CheckRow × Option FailureDetail :=
  runChecksFrom exec checks

/-- One markdown table row of the report. -/
def renderRow (r : CheckRow) : String :=
  "| " ++ r.name ++ " | " ++ r.status ++ " | " ++ r.duration ++ " |\n"

/-- Python `s[-n:]`: the last `n` characters (whole string when shorter). -/
def tailSlice (n : Nat) (s : String) : String :=
  String.mk (s.data.drop (s.data.length - n))

/-- The results part of the report body: a table when `results` is
non-empty (truthy), otherwise the skip message (process_pr.py 358-365). -/
def resultsSection (results : List CheckRow) : String :=
  if results.isEmpty then
    "**Verification skipped due to merge/rebase failures.**\n"
  else
    "| Check | Status | Duration |\n" ++ "|---|---|---|\n" ++
      String.join (results.map renderRow)

/-- The optional session line (`if session_url:`; the link is either
absent or a non-empty string, so Python truthiness is `Option`). -/
def sessionLine : Option String → String
  | some u => "Jules session created: " ++ u ++ "\n"
  | none => ""

/-- The failure part of the report body (process_pr.py 367-375), with
the log tail-truncated to 2000 characters. -/
def failureSection (f : FailureDetail) (session_url : Option String) : String :=
  "\n\n**Verification Failed at: " ++ f.step ++ "**\n" ++
    sessionLine session_url ++
    "\n<details><summary>Failure Logs</summary>\n\n```\n" ++
    tailSlice 2000 f.log ++ "\n```\n</details>"

/-- The full comment body built by `post_pr_comment` (process_pr.py
353-377). -/
def post_pr_comment_body (results : List CheckRow)
    (failure : Option FailureDetail) (session_url : Option String) : String :=
  "### Automated Verification Results\n\n" ++ resultsSection results ++
    match failure with
    | some f => failureSection f session_url
    | none => "\n\nAll checks passed! Ready for review."

/-- The remediation prompt built by `trigger_jules_fix` (process_pr.py
424-432), with every f-string hole expanded. -/
def jules_prompt (branch_name pr_number pr_title : String)
    (f : FailureDetail) : String :=
  "The verification failed for PR #" ++ pr_number ++ " (\"" ++ pr_title ++
    "\").\n\n" ++
    "**Failed Step:** " ++ f.step ++ "\n" ++
    "**Command:** `" ++ f.cmd ++ "`\n\n" ++
    "**Error Log:**\n```\n" ++ f.log ++ "\n```\n\n" ++
    "Please analyze, fix branch `" ++ branch_name ++
    "`, and verify with:\n" ++
    "1. npm run lint\n2. npm run build\n" ++
    "3. npm run test\n4. npm run test:visual"

/-- How the remediation dispatch can go: the Jules integration is not
importable; it is importable but `JulesClient()` finds no API key and
calls `sys.exit(1)` (jules_ops.py 40-48 — this constructor call sits
outside the `try` in `trigger_jules_fix`); `create_session` returns a
session name; or `create_session` raises and is caught. -/
inductive JulesDispatch where
  | unavailable
  | fatalNoApiKey
  | created (id : String)
  | failed
deriving DecidableEq

/-- `trigger_jules_fix` (process_pr.py 414-447): returns `error ()` when
the process exits inside it, otherwise the optional session name. -/
def trigger_jules_fix (j : JulesDispatch) : Except Unit (Option String) :=
  match j with
  | JulesDispatch.unavailable => Except.ok none
  | JulesDispatch.fatalNoApiKey => Except.error ()
  | JulesDispatch.created id => Except.ok (some id)
  | JulesDispatch.failed => Except.ok none

/-- The FailureDetail synthesized by `main` when the sync reports
conflicts (process_pr.py 480-486; the two adjacent string literals of
the log concatenate). -/
def syncFailureDetail : FailureDetail :=
  ⟨"Git Rebase/Merge", "git rebase origin/leader",
   "Merge conflicts detected. Conflict markers have been committed and pushed."⟩

/-- Oracle for one pipeline run: whether `get_pr_details` succeeds,
whether `setup_worktree` succeeds (it calls `sys.exit(1)` or crashes
otherwise), the git command outcomes, whether the dependency-install
step (`scripts/setup.sh` or `npm install`, run with `check=True`)
succeeds, the captured result of each check, and the remediation
dispatch behaviour. -/
structure Oracle where
  prOk : Bool
  worktreeOk : Bool
  git : GitCmd → Bool
  installOk : Bool
  exec : CheckSpec → ProcResult
  jules : JulesDispatch

/-- How the process ends: a non-zero exit (`sys.exit(1)` or an uncaught
exception), or a posted report body followed by a zero exit. -/
inductive RunEnd where
  | exitNonzero
  | reported (body : String)
deriving DecidableEq

/-- `main()` (process_pr.py 450-556): resolve the PR (exit 1 on
failure), set up the worktree (exit 1 on failure), sync (an uncaught
exception aborts), then either the conflict path (skip install, secrets
and checks; synthesize `syncFailureDetail`) or the clean path (install —
uncaught exception on failure — then run checks).  On any failure,
dispatch remediation (which may itself exit the process) and attach the
session link; finally post the report.  Secrets provisioning, draft
toggling and the optional preview server never change the exit or the
body and are not modelled. -/
def mainRun (o : Oracle) : RunEnd :=
  if o.prOk = false then RunEnd.exitNonzero
  else if o.worktreeOk = false then RunEnd.exitNonzero
  else
    match (rebase_and_push o.git).outcome with
    | Except.error _ => RunEnd.exitNonzero
    | Except.ok isClean =>
      if isClean = false then
        match trigger_jules_fix o.jules with
        | Except.error _ => RunEnd.exitNonzero
        | Except.ok sid =>
          RunEnd.reported (post_pr_comment_body [] (some syncFailureDetail)
            (sid.map (fun s => "Session ID: " ++ s)))
      else if o.installOk = false then RunEnd.exitNonzero
      else
        match run_checks o.exec with
        | (results, some f) =>
          match trigger_jules_fix o.jules with
          | Except.error _ => RunEnd.exitNonzero
          | Except.ok sid =>
            RunEnd.reported (post_pr_comment_body results (some f)
              (sid.map (fun s => "Session ID: " ++ s)))
        | (results, none) =>
          RunEnd.reported (post_pr_comment_body results none none)

/-- Does the run end in a posted report (and hence a zero exit)? -/
def isReported : RunEnd → Bool
  | RunEnd.reported _ => true
  | RunEnd.exitNonzero => false

/-- Executable substring test: does `needle` occur contiguously in
`hay`? -/
def occursIn (needle : List Char) : List Char → Bool
  | [] => needle.isEmpty
  | c :: rest => List.isPrefixOf needle (c :: rest) || occursIn needle rest

/-- Substring test on strings. -/
def strContains (needle hay : String) : Bool := occursIn needle.data hay.data

/-! ### Concrete oracles used to instantiate theorems -/

/-- Oracle where every git command succeeds. -/
def allOkGit : GitCmd → Bool := fun _ => true

/-- Oracle where only the fetch of the integration branch fails. -/
def noFetchGit : GitCmd → Bool := fun c => c != GitCmd.fetchLeader

/-- Oracle where rebase and merge conflict and the push also fails. -/
def conflictNoPushGit : GitCmd → Bool := fun c => c == GitCmd.fetchLeader

/-- Execution oracle where every check exits zero with empty output. -/
def zeroExec : CheckSpec → ProcResult := fun _ => ⟨0, "", "0.1"⟩

/-- Execution oracle where lint passes and every later check exits 1. -/
def buildFailExec : CheckSpec → ProcResult :=
  fun c => if c.name = "Lint" then ⟨0, "", "1.0"⟩ else ⟨1, "", "2.0"⟩

/-- Run where the sync fetch fails after PR and workspace succeed. -/
def noFetchOracle : Oracle :=
  ⟨true, true, noFetchGit, true, zeroExec, JulesDispatch.unavailable⟩

/-- Run where sync is clean but dependency install fails. -/
def installFailOracle : Oracle :=
  ⟨true, true, allOkGit, false, zeroExec, JulesDispatch.unavailable⟩

/-- Run where everything succeeds. -/
def happyOracle : Oracle :=
  ⟨true, true, allOkGit, true, zeroExec, JulesDispatch.unavailable⟩

/-- Run where rebase and merge both conflict. -/
def conflictOracle : Oracle :=
  ⟨true, true, conflictNoPushGit, true, zeroExec, JulesDispatch.unavailable⟩

/-- Run where rebase and merge both conflict and the remediation client
is importable but has no API key, so its constructor exits the
process. -/
def fatalJulesOracle : Oracle :=
  ⟨true, true, conflictNoPushGit, true, zeroExec, JulesDispatch.fatalNoApiKey⟩

/-! ### Substring lemmas -/

theorem isPrefixOf_self (n : List Char) : List.isPrefixOf n n = true := by
  induction n with
  | nil => rfl
  | cons c cs ih => simp [List.isPrefixOf, ih]

theorem isPrefixOf_nil_left (l : List Char) :
    List.isPrefixOf ([] : List Char) l = true := by
  cases l <;> rfl

theorem isPrefixOf_append_of (n a b : List Char)
    (h : List.isPrefixOf n a = true) : List.isPrefixOf n (a ++ b) = true := by
  induction n generalizing a with
  | nil => exact isPrefixOf_nil_left (a ++ b)
  | cons c cs ih =>
    cases a with
    | nil => simp [List.isPrefixOf] at h
    | cons d ds =>
      simp only [List.cons_append, List.isPrefixOf, Bool.and_eq_true] at h ⊢
      exact ⟨h.1, ih ds h.2⟩

theorem occursIn_nil (b : List Char) : occursIn ([] : List Char) b = true := by
  cases b with
  | nil => rfl
  | cons c rest => simp [occursIn, List.isPrefixOf]

theorem occursIn_of_isPrefixOf (n h : List Char)
    (hp : List.isPrefixOf n h = true) : occursIn n h = true := by
  cases h with
  | nil =>
    cases n with
    | nil => rfl
    | cons c cs => simp [List.isPrefixOf] at hp
  | cons c rest => simp [occursIn, hp]

theorem occursIn_cons (n : List Char) (c : Char) (rest : List Char)
    (h : occursIn n rest = true) : occursIn n (c :: rest) = true := by
  simp [occursIn, h]

theorem occursIn_append_right (n a b : List Char) (h : occursIn n b = true) :
    occursIn n (a ++ b) = true := by
  induction a with
  | nil => exact h
  | cons c cs ih => exact occursIn_cons n c (cs ++ b) ih

theorem occursIn_append_left (n a b : List Char) (h : occursIn n a = true) :
    occursIn n (a ++ b) = true := by
  induction a with
  | nil =>
    cases n with
    | nil => exact occursIn_nil b
    | cons c cs => simp [occursIn] at h
  | cons c cs ih =>
    simp only [occursIn, Bool.or_eq_true] at h
    rcases h with hp | ho
    · exact occursIn_of_isPrefixOf _ _ (isPrefixOf_append_of _ _ _ hp)
    · exact occursIn_cons _ _ _ (ih ho)

theorem strData_append (a b : String) : (a ++ b).data = a.data ++ b.data := rfl

theorem strContains_append_left (n a b : String)
    (h : strContains n a = true) : strContains n (a ++ b) = true := by
  unfold strContains at h ⊢
  rw [strData_append]
  exact occursIn_append_left _ _ _ h

theorem strContains_append_right (n a b : String)
    (h : strContains n b = true) : strContains n (a ++ b) = true := by
  unfold strContains at h ⊢
  rw [strData_append]
  exact occursIn_append_right _ _ _ h

theorem strContains_self (n : String) : strContains n n = true :=
  occursIn_of_isPrefixOf _ _ (isPrefixOf_self n.data)

/-! ### Sync engine claims -/

/-- C1: when the fetch succeeds and the rebase of the branch onto the
integration branch succeeds, the sync outcome is Clean (`True`
returned), the branch is force-pushed, and the merge fallback is never
attempted. -/
theorem rebase_clean_sync (git : GitCmd → Bool) (branch : String)
    (hf : git GitCmd.fetchLeader = true) (hr : git GitCmd.rebase = true) :
    (rebase_and_push git).outcome = Except.ok true ∧
    (rebase_and_push git).trace =
      [GitCmd.fetchLeader, GitCmd.rebase, GitCmd.pushForce] ∧
    GitCmd.merge ∉ (rebase_and_push git).trace ∧
    GitCmd.pushForce ∈ (rebase_and_push git).trace ∧
    cmdArgs branch GitCmd.pushForce =
      ["git", "push", "origin", branch, "--force"] := by
  have hrp : rebase_and_push git =
      { trace := [GitCmd.fetchLeader, GitCmd.rebase, GitCmd.pushForce],
        outcome := Except.ok true } := by
    simp [rebase_and_push, hf, hr]
  rw [hrp]
  exact ⟨rfl, rfl, by decide, by decide, rfl⟩

/-- C1 witness: the theorem applied to the all-success git oracle. -/
theorem rebase_clean_sync_witness :
    (rebase_and_push allOkGit).outcome = Except.ok true ∧
    (rebase_and_push allOkGit).trace =
      [GitCmd.fetchLeader, GitCmd.rebase, GitCmd.pushForce] ∧
    GitCmd.merge ∉ (rebase_and_push allOkGit).trace ∧
    GitCmd.pushForce ∈ (rebase_and_push allOkGit).trace ∧
    cmdArgs "feature/x" GitCmd.pushForce =
      ["git", "push", "origin", "feature/x", "--force"] :=
  rebase_clean_sync allOkGit "feature/x" rfl rfl

/-- C2: when the rebase fails but the fallback merge succeeds, the
rebase is aborted (the abort follows the rebase and precedes the merge
in the trace, and its own outcome is never consulted), the outcome is
Clean, and no conflict commit is ever created. -/
theorem rebase_conflict_merge_clean (git : GitCmd → Bool)
    (hf : git GitCmd.fetchLeader = true) (hr : git GitCmd.rebase = false)
    (hm : git GitCmd.merge = true) :
    (rebase_and_push git).outcome = Except.ok true ∧
    (rebase_and_push git).trace =
      [GitCmd.fetchLeader, GitCmd.rebase, GitCmd.rebaseAbort,
       GitCmd.merge, GitCmd.pushForce] ∧
    GitCmd.commitConflicts ∉ (rebase_and_push git).trace ∧
    GitCmd.addAll ∉ (rebase_and_push git).trace ∧
    (∀ git2 : GitCmd → Bool, (∀ c, c ≠ GitCmd.rebaseAbort → git2 c = git c) →
      rebase_and_push git2 = rebase_and_push git) := by
  have hrp : rebase_and_push git =
      { trace := [GitCmd.fetchLeader, GitCmd.rebase, GitCmd.rebaseAbort,
                  GitCmd.merge, GitCmd.pushForce],
        outcome := Except.ok true } := by
    simp [rebase_and_push, hf, hr, hm]
  refine ⟨by rw [hrp], by rw [hrp], by rw [hrp]; decide, by rw [hrp]; decide,
    ?_⟩
  intro git2 hag
  have e1 : git2 GitCmd.fetchLeader = true :=
    (hag GitCmd.fetchLeader (by decide)).trans hf
  have e2 : git2 GitCmd.rebase = false :=
    (hag GitCmd.rebase (by decide)).trans hr
  have e3 : git2 GitCmd.merge = true :=
    (hag GitCmd.merge (by decide)).trans hm
  have hrp2 : rebase_and_push git2 =
      { trace := [GitCmd.fetchLeader, GitCmd.rebase, GitCmd.rebaseAbort,
                  GitCmd.merge, GitCmd.pushForce],
        outcome := Except.ok true } := by
    simp [rebase_and_push, e1, e2, e3]
  rw [hrp, hrp2]

/-- C2 witness: the theorem applied to an oracle where only the rebase
conflicts. -/
theorem rebase_conflict_merge_clean_witness :
    (rebase_and_push (fun c => c != GitCmd.rebase)).outcome =
      Except.ok true ∧
    (rebase_and_push (fun c => c != GitCmd.rebase)).trace =
      [GitCmd.fetchLeader, GitCmd.rebase, GitCmd.rebaseAbort,
       GitCmd.merge, GitCmd.pushForce] ∧
    GitCmd.commitConflicts ∉ (rebase_and_push (fun c => c != GitCmd.rebase)).trace ∧
    GitCmd.addAll ∉ (rebase_and_push (fun c => c != GitCmd.rebase)).trace ∧
    (∀ git2 : GitCmd → Bool,
      (∀ c, c ≠ GitCmd.rebaseAbort → git2 c = (fun c => c != GitCmd.rebase) c) →
      rebase_and_push git2 = rebase_and_push (fun c => c != GitCmd.rebase)) :=
  rebase_conflict_merge_clean (fun c => c != GitCmd.rebase) rfl rfl rfl

/-- C3: when both the rebase and the fallback merge conflict, all files
are staged (`git add .`), committed with the fixed message
`Merge origin/leader (with unresolved conflicts)`, force-pushed last,
and the outcome is ConflictCommitted (`False` returned). -/
theorem both_conflict_commit (git : GitCmd → Bool) (branch : String)
    (hf : git GitCmd.fetchLeader = true) (hr : git GitCmd.rebase = false)
    (hm : git GitCmd.merge = false) :
    (rebase_and_push git).outcome = Except.ok false ∧
    (rebase_and_push git).trace =
      [GitCmd.fetchLeader, GitCmd.rebase, GitCmd.rebaseAbort, GitCmd.merge,
       GitCmd.addAll, GitCmd.commitConflicts, GitCmd.pushForce] ∧
    cmdArgs branch GitCmd.addAll = ["git", "add", "."] ∧
    cmdArgs branch GitCmd.commitConflicts =
      ["git", "commit", "-m",
       "Merge origin/leader (with unresolved conflicts)"] ∧
    (rebase_and_push git).trace.getLast? = some GitCmd.pushForce := by
  have hrp : rebase_and_push git =
      { trace := [GitCmd.fetchLeader, GitCmd.rebase, GitCmd.rebaseAbort,
                  GitCmd.merge, GitCmd.addAll, GitCmd.commitConflicts,
                  GitCmd.pushForce],
        outcome := Except.ok false } := by
    simp [rebase_and_push, hf, hr, hm]
  rw [hrp]
  exact ⟨rfl, rfl, rfl, rfl, rfl⟩

/-- C3 witness: the theorem applied to an oracle where rebase and merge
both conflict. -/
theorem both_conflict_commit_witness :
    (rebase_and_push conflictNoPushGit).outcome = Except.ok false ∧
    (rebase_and_push conflictNoPushGit).trace =
      [GitCmd.fetchLeader, GitCmd.rebase, GitCmd.rebaseAbort, GitCmd.merge,
       GitCmd.addAll, GitCmd.commitConflicts, GitCmd.pushForce] ∧
    cmdArgs "feature/y" GitCmd.addAll = ["git", "add", "."] ∧
    cmdArgs "feature/y" GitCmd.commitConflicts =
      ["git", "commit", "-m",
       "Merge origin/leader (with unresolved conflicts)"] ∧
    (rebase_and_push conflictNoPushGit).trace.getLast? =
      some GitCmd.pushForce :=
  both_conflict_commit conflictNoPushGit "feature/y" rfl rfl rfl

/-- C10: whenever the fallback merge fails, the verdict is
ConflictCommitted regardless of how the staging, commit and push
commands fare (they are invoked with `check=False` and their outcomes
are never consulted); in particular there is a run whose push fails yet
still reports ConflictCommitted, so the verdict does not guarantee the
conflict commit reached the remote. -/
theorem conflict_verdict_unconditional (git : GitCmd → Bool)
    (hf : git GitCmd.fetchLeader = true) (hr : git GitCmd.rebase = false)
    (hm : git GitCmd.merge = false) :
    (rebase_and_push git).outcome = Except.ok false ∧
    (∀ git2 : GitCmd → Bool, git2 GitCmd.fetchLeader = true →
      git2 GitCmd.rebase = false → git2 GitCmd.merge = false →
      rebase_and_push git2 = rebase_and_push git) ∧
    (∃ git2 : GitCmd → Bool, git2 GitCmd.pushForce = false ∧
      (rebase_and_push git2).outcome = Except.ok false ∧
      GitCmd.pushForce ∈ (rebase_and_push git2).trace) := by
  have hrp : rebase_and_push git =
      { trace := [GitCmd.fetchLeader, GitCmd.rebase, GitCmd.rebaseAbort,
                  GitCmd.merge, GitCmd.addAll, GitCmd.commitConflicts,
                  GitCmd.pushForce],
        outcome := Except.ok false } := by
    simp [rebase_and_push, hf, hr, hm]
  refine ⟨by rw [hrp], ?_, ?_⟩
  · intro git2 h1 h2 h3
    have hrp2 : rebase_and_push git2 =
        { trace := [GitCmd.fetchLeader, GitCmd.rebase, GitCmd.rebaseAbort,
                    GitCmd.merge, GitCmd.addAll, GitCmd.commitConflicts,
                    GitCmd.pushForce],
          outcome := Except.ok false } := by
      simp [rebase_and_push, h1, h2, h3]
    rw [hrp, hrp2]
  · exact ⟨conflictNoPushGit, rfl, by rfl, by decide⟩

/-- C10 witness: the theorem applied to the all-conflict oracle. -/
theorem conflict_verdict_unconditional_witness :
    (rebase_and_push conflictNoPushGit).outcome = Except.ok false ∧
    (∀ git2 : GitCmd → Bool, git2 GitCmd.fetchLeader = true →
      git2 GitCmd.rebase = false → git2 GitCmd.merge = false →
      rebase_and_push git2 = rebase_and_push conflictNoPushGit) ∧
    (∃ git2 : GitCmd → Bool, git2 GitCmd.pushForce = false ∧
      (rebase_and_push git2).outcome = Except.ok false ∧
      GitCmd.pushForce ∈ (rebase_and_push git2).trace) :=
  conflict_verdict_unconditional conflictNoPushGit rfl rfl rfl

/-! ### Verification runner claims -/

theorem runChecksFrom_failFast (exec : CheckSpec → ProcResult) :
    ∀ (cs : List CheckSpec) (k : Nat) (hk : k < cs.length),
    (∀ i (hik : i < k), classify (cs.get ⟨i, Nat.lt_trans hik hk⟩)
      (exec (cs.get ⟨i, Nat.lt_trans hik hk⟩)) = false) →
    classify (cs.get ⟨k, hk⟩) (exec (cs.get ⟨k, hk⟩)) = true →
    (runChecksFrom exec cs).1.length = k + 1 ∧
    (runChecksFrom exec cs).1.getLast? =
      some ⟨(cs.get ⟨k, hk⟩).name, "[FAIL]",
        (exec (cs.get ⟨k, hk⟩)).duration ++ "s"⟩ ∧
    (runChecksFrom exec cs).2 =
      some ⟨(cs.get ⟨k, hk⟩).name, String.intercalate " " (cs.get ⟨k, hk⟩).cmd,
        logOf (exec (cs.get ⟨k, hk⟩))⟩ := by
  intro cs
  induction cs with
  | nil => intro k hk _ _; exact absurd hk (Nat.not_lt_zero k)
  | cons c rest ih =>
    intro k hk hb hf
    cases k with
    | zero =>
      have hc : classify c (exec c) = true := hf
      simp only [runChecksFrom, hc, if_true]
      exact ⟨rfl, rfl, rfl⟩
    | succ k =>
      have h0 : classify c (exec c) = false := hb 0 (Nat.succ_pos k)
      have hk2 : k < rest.length := Nat.lt_of_succ_lt_succ hk
      obtain ⟨hlen, hlast, hsnd⟩ :=
        ih k hk2 (fun i hik => hb (i + 1) (Nat.succ_lt_succ hik)) hf
      simp only [runChecksFrom, h0, Bool.false_eq_true, if_false]
      refine ⟨by simp [hlen], ?_, hsnd⟩
      rcases hl : (runChecksFrom exec rest).1 with _ | ⟨r0, rs⟩
      · rw [hl] at hlen; simp at hlen
      · rw [hl] at hlast
        rw [List.getLast?_cons_cons]
        exact hlast

theorem runChecksFrom_agree (exec exec2 : CheckSpec → ProcResult) :
    ∀ (cs : List CheckSpec) (k : Nat) (hk : k < cs.length),
    (∀ i (hik : i < k), classify (cs.get ⟨i, Nat.lt_trans hik hk⟩)
      (exec (cs.get ⟨i, Nat.lt_trans hik hk⟩)) = false) →
    classify (cs.get ⟨k, hk⟩) (exec (cs.get ⟨k, hk⟩)) = true →
    (∀ i (hik : i ≤ k), exec2 (cs.get ⟨i, Nat.lt_of_le_of_lt hik hk⟩) =
      exec (cs.get ⟨i, Nat.lt_of_le_of_lt hik hk⟩)) →
    runChecksFrom exec2 cs = runChecksFrom exec cs := by
  intro cs
  induction cs with
  | nil => intro k hk _ _ _; exact absurd hk (Nat.not_lt_zero k)
  | cons c rest ih =>
    intro k hk hb hf hag
    have hagc : exec2 c = exec c := hag 0 (Nat.zero_le k)
    cases k with
    | zero =>
      have hc : classify c (exec c) = true := hf
      simp only [runChecksFrom]
      rw [hagc]
      simp [hc]
    | succ k =>
      have h0 : classify c (exec c) = false := hb 0 (Nat.succ_pos k)
      have hk2 : k < rest.length := Nat.lt_of_succ_lt_succ hk
      have hrest := ih k hk2 (fun i hik => hb (i + 1) (Nat.succ_lt_succ hik))
        hf (fun i hik => hag (i + 1) (Nat.succ_le_succ hik))
      simp only [runChecksFrom]
      rw [hagc, hrest]

/-- C4: over the fixed check list, if the checks before index k all pass
and check k is classified Fail, then the results sequence has exactly
k+1 entries, the last of which is the Fail row for check k, the failure
details name check k, and the whole run is insensitive to the execution
of any check after k (any oracle agreeing on checks 0..k yields the
same run), i.e. checks after the first failure are never invoked. -/
theorem run_checks_failFast (exec : CheckSpec → ProcResult) (k : Nat)
    (hk : k < checks.length)
    (hbefore : ∀ i (hik : i < k), classify (checks.get ⟨i, Nat.lt_trans hik hk⟩)
      (exec (checks.get ⟨i, Nat.lt_trans hik hk⟩)) = false)
    (hfail : classify (checks.get ⟨k, hk⟩) (exec (checks.get ⟨k, hk⟩)) = true) :
    (run_checks exec).1.length = k + 1 ∧
    (run_checks exec).1.getLast? =
      some ⟨(checks.get ⟨k, hk⟩).name, "[FAIL]",
        (exec (checks.get ⟨k, hk⟩)).duration ++ "s"⟩ ∧
    (run_checks exec).2 =
      some ⟨(checks.get ⟨k, hk⟩).name,
        String.intercalate " " (checks.get ⟨k, hk⟩).cmd,
        logOf (exec (checks.get ⟨k, hk⟩))⟩ ∧
    ∀ exec2 : CheckSpec → ProcResult,
      (∀ i (hik : i ≤ k), exec2 (checks.get ⟨i, Nat.lt_of_le_of_lt hik hk⟩) =
        exec (checks.get ⟨i, Nat.lt_of_le_of_lt hik hk⟩)) →
      run_checks exec2 = run_checks exec := by
  obtain ⟨h1, h2, h3⟩ := runChecksFrom_failFast exec checks k hk hbefore hfail
  exact ⟨h1, h2, h3,
    fun exec2 hag => runChecksFrom_agree exec exec2 checks k hk hbefore hfail hag⟩

/-- C4 witness: lint passes, build (index 1) fails, so the run records
exactly two rows ending in the Build failure. -/
theorem run_checks_failFast_witness :
    (run_checks buildFailExec).1.length = 2 ∧
    (run_checks buildFailExec).1.getLast? =
      some ⟨"Build", "[FAIL]", "2.0s"⟩ := by
  have h := run_checks_failFast buildFailExec 1 (by decide)
    (by
      intro i hik
      have hi : i = 0 := Nat.lt_one_iff.mp hik
      subst hi
      exact (by decide :
        classify (checks.get ⟨0, by decide⟩)
          (buildFailExec (checks.get ⟨0, by decide⟩)) = false))
    (by decide)
  exact ⟨h.1, by simpa using h.2.1⟩

theorem classify_eq_pattern_or_exit (c : CheckSpec) (p : ProcResult) :
    classify c p =
      (failurePattern c (pyLower p.stdout) || p.returncode != 0) := by
  simp only [classify, failurePattern]
  split_ifs <;> simp

/-- C5: any check of the suite whose process exits zero but whose
captured output matches that check's failure pattern (the per-check
heuristic table `failurePattern`) is still classified Fail. -/
theorem zero_exit_pattern_fail (c : CheckSpec) (hc : c ∈ checks)
    (p : ProcResult) (hrc : p.returncode = 0)
    (hp : failurePattern c (pyLower p.stdout) = true) :
    classify c p = true := by
  rw [classify_eq_pattern_or_exit, hp, Bool.true_or]

/-- C5 witness: a Visual Tests run that exits zero while its output
reports `1 failed` is classified Fail. -/
theorem zero_exit_pattern_fail_witness :
    classify ⟨"Visual Tests", ["npm", "run", "test:visual", "--", "--reporter=list"]⟩
      ⟨0, "Running 5 tests\n  1 failed\n  4 passed", "3.2"⟩ = true :=
  zero_exit_pattern_fail
    ⟨"Visual Tests", ["npm", "run", "test:visual", "--", "--reporter=list"]⟩
    (by decide)
    ⟨0, "Running 5 tests\n  1 failed\n  4 passed", "3.2"⟩ rfl (by decide)

theorem strContains_append_self_left (n a : String) :
    strContains n (a ++ n) = true :=
  strContains_append_right n a n (strContains_self n)

/-! ### Orchestrator and reporter claims -/

/-- C6: when the sync reports conflicts, dependency install and
verification are skipped entirely (the run is insensitive to the
install outcome and to the check oracle), the FailureDetail is the
synthesized one with step `Git Rebase/Merge`, and the posted report is
rendered from an empty results list: it contains the literal sync step
label and (with no session link) no check row for lint, build, unit
tests or visual tests. -/
theorem conflict_skips_install_and_checks (o : Oracle) (sid : Option String)
    (hpr : o.prOk = true) (hwt : o.worktreeOk = true)
    (hf : o.git GitCmd.fetchLeader = true) (hr : o.git GitCmd.rebase = false)
    (hm : o.git GitCmd.merge = false)
    (hj : trigger_jules_fix o.jules = Except.ok sid) :
    mainRun o = RunEnd.reported (post_pr_comment_body [] (some syncFailureDetail)
      (sid.map (fun s => "Session ID: " ++ s))) ∧
    (∀ (b : Bool) (e : CheckSpec → ProcResult),
      mainRun { o with installOk := b, exec := e } = mainRun o) ∧
    syncFailureDetail.step = "Git Rebase/Merge" ∧
    strContains "Git Rebase/Merge"
      (post_pr_comment_body [] (some syncFailureDetail)
        (sid.map (fun s => "Session ID: " ++ s))) = true ∧
    (sid = none →
      strContains "| Lint |"
        (post_pr_comment_body [] (some syncFailureDetail) none) = false ∧
      strContains "| Build |"
        (post_pr_comment_body [] (some syncFailureDetail) none) = false ∧
      strContains "| Unit Tests |"
        (post_pr_comment_body [] (some syncFailureDetail) none) = false ∧
      strContains "| Visual Tests |"
        (post_pr_comment_body [] (some syncFailureDetail) none) = false) := by
  have ho : (rebase_and_push o.git).outcome = Except.ok false := by
    simp [rebase_and_push, hf, hr, hm]
  refine ⟨by simp [mainRun, hpr, hwt, ho, hj], ?_, rfl, ?_, ?_⟩
  · intro b e
    simp [mainRun, hpr, hwt, ho, hj]
  · cases sid with
    | none => decide
    | some s =>
      simp only [Option.map_some, post_pr_comment_body]
      apply strContains_append_right
      simp only [failureSection]
      apply strContains_append_left
      apply strContains_append_left
      apply strContains_append_left
      apply strContains_append_left
      apply strContains_append_left
      exact strContains_append_self_left _ _
  · intro _
    exact ⟨by decide, by decide, by decide, by decide⟩

/-- C6 witness: the theorem applied to a concrete all-conflict run with
the remediation client unavailable. -/
theorem conflict_skips_install_and_checks_witness :
    mainRun conflictOracle = RunEnd.reported
      (post_pr_comment_body [] (some syncFailureDetail)
        ((none : Option String).map (fun s => "Session ID: " ++ s))) ∧
    strContains "Git Rebase/Merge"
      (post_pr_comment_body [] (some syncFailureDetail)
        ((none : Option String).map (fun s => "Session ID: " ++ s))) = true := by
  have h := conflict_skips_install_and_checks conflictOracle none
    rfl rfl rfl rfl rfl rfl
  exact ⟨h.1, h.2.2.2.1⟩

/-- C9: the remediation prompt embeds the failing step name, the exact
failing command, the full (untruncated) captured log, and each of the
four verification commands the agent must re-run. -/
theorem jules_prompt_embeds (branch_name pr_number pr_title : String)
    (f : FailureDetail) :
    strContains f.step (jules_prompt branch_name pr_number pr_title f) = true ∧
    strContains f.cmd (jules_prompt branch_name pr_number pr_title f) = true ∧
    strContains f.log (jules_prompt branch_name pr_number pr_title f) = true ∧
    strContains "npm run lint"
      (jules_prompt branch_name pr_number pr_title f) = true ∧
    strContains "npm run build"
      (jules_prompt branch_name pr_number pr_title f) = true ∧
    strContains "npm run test"
      (jules_prompt branch_name pr_number pr_title f) = true ∧
    strContains "npm run test:visual"
      (jules_prompt branch_name pr_number pr_title f) = true := by
  unfold jules_prompt
  refine ⟨?_, ?_, ?_, ?_, ?_, ?_, ?_⟩
  · iterate 12 apply strContains_append_left
    exact strContains_append_self_left _ _
  · iterate 9 apply strContains_append_left
    exact strContains_append_self_left _ _
  · iterate 6 apply strContains_append_left
    exact strContains_append_self_left _ _
  · apply strContains_append_left
    apply strContains_append_right
    decide
  · apply strContains_append_left
    apply strContains_append_right
    decide
  · apply strContains_append_right
    decide
  · apply strContains_append_right
    decide

theorem trigger_ok_of_not_fatal (j : JulesDispatch)
    (hj : j ≠ JulesDispatch.fatalNoApiKey) :
    ∃ sid, trigger_jules_fix j = Except.ok sid := by
  cases j with
  | unavailable => exact ⟨none, rfl⟩
  | fatalNoApiKey => exact absurd rfl hj
  | created id => exact ⟨some id, rfl⟩
  | failed => exact ⟨none, rfl⟩

theorem mainRun_reaches_report (o : Oracle) (hpr : o.prOk = true)
    (hwt : o.worktreeOk = true) (hfe : o.git GitCmd.fetchLeader = true)
    (hin : o.installOk = true) (hj : o.jules ≠ JulesDispatch.fatalNoApiKey) :
    isReported (mainRun o) = true := by
  obtain ⟨sid, hsid⟩ := trigger_ok_of_not_fatal o.jules hj
  cases hr2 : o.git GitCmd.rebase with
  | true =>
    have ho : (rebase_and_push o.git).outcome = Except.ok true := by
      simp [rebase_and_push, hfe, hr2]
    rcases hrc : run_checks o.exec with ⟨results, fopt⟩
    cases fopt with
    | none => simp [mainRun, hpr, hwt, ho, hin, hrc, isReported]
    | some f => simp [mainRun, hpr, hwt, ho, hin, hrc, hsid, isReported]
  | false =>
    cases hm2 : o.git GitCmd.merge with
    | true =>
      have ho : (rebase_and_push o.git).outcome = Except.ok true := by
        simp [rebase_and_push, hfe, hr2, hm2]
      rcases hrc : run_checks o.exec with ⟨results, fopt⟩
      cases fopt with
      | none => simp [mainRun, hpr, hwt, ho, hin, hrc, isReported]
      | some f => simp [mainRun, hpr, hwt, ho, hin, hrc, hsid, isReported]
    | false =>
      have ho : (rebase_and_push o.git).outcome = Except.ok false := by
        simp [rebase_and_push, hfe, hr2, hm2]
      simp [mainRun, hpr, hwt, ho, hsid, isReported]

/-- C7 counterexample: a run where the sync-step fetch of the
integration branch fails (PR resolved, workspace prepared): the
`git fetch origin leader` call is made with `check=True`, so
`rebase_and_push` raises and the run aborts with a non-zero exit and no
posted report — a fetch failure is not best-effort. -/
theorem sync_fetch_failure_aborts :
    noFetchOracle.prOk = true ∧ noFetchOracle.worktreeOk = true ∧
    (rebase_and_push noFetchGit).outcome = Except.error () ∧
    mainRun noFetchOracle = RunEnd.exitNonzero := by
  exact ⟨rfl, rfl, rfl, by decide⟩

/-- C7 (amended): push failures during the sync step are best-effort —
the sync's behaviour is entirely independent of the push outcome, and a
run whose sync fetch succeeds continues to later steps and a posted
report (given that the later steps themselves do not raise); but a
failure of the sync-step fetch raises an uncaught error that aborts the
run with no report. -/
theorem push_best_effort_fetch_fatal (o : Oracle)
    (hpr : o.prOk = true) (hwt : o.worktreeOk = true) :
    (∀ git2 : GitCmd → Bool, (∀ c, c ≠ GitCmd.pushForce → git2 c = o.git c) →
      rebase_and_push git2 = rebase_and_push o.git) ∧
    (o.git GitCmd.fetchLeader = false → mainRun o = RunEnd.exitNonzero) ∧
    (o.git GitCmd.fetchLeader = true → o.installOk = true →
      o.jules ≠ JulesDispatch.fatalNoApiKey →
      isReported (mainRun o) = true) := by
  refine ⟨?_, ?_, ?_⟩
  · intro git2 hag
    have e1 : git2 GitCmd.fetchLeader = o.git GitCmd.fetchLeader :=
      hag GitCmd.fetchLeader (by decide)
    have e2 : git2 GitCmd.rebase = o.git GitCmd.rebase :=
      hag GitCmd.rebase (by decide)
    have e3 : git2 GitCmd.merge = o.git GitCmd.merge :=
      hag GitCmd.merge (by decide)
    unfold rebase_and_push
    rw [e1, e2, e3]
  · intro hfe
    have ho : (rebase_and_push o.git).outcome = Except.error () := by
      simp [rebase_and_push, hfe]
    simp [mainRun, hpr, hwt, ho]
  · exact mainRun_reaches_report o hpr hwt

/-- C7 amended witness: the push-independence part applied to two
oracles differing only in the push outcome, and the fetch-fatal part
applied to the failing-fetch oracle. -/
theorem push_best_effort_fetch_fatal_witness :
    rebase_and_push (fun c => c == GitCmd.fetchLeader || c == GitCmd.pushForce) =
      rebase_and_push conflictOracle.git ∧
    mainRun noFetchOracle = RunEnd.exitNonzero := by
  constructor
  · refine (push_best_effort_fetch_fatal conflictOracle rfl rfl).1 _ ?_
    intro c hc
    cases c
    · rfl
    · rfl
    · rfl
    · rfl
    · rfl
    · rfl
    · exact absurd rfl hc
  · exact (push_best_effort_fetch_fatal noFetchOracle rfl rfl).2.1 rfl

/-- C8 counterexample: a run where the PR resolves and the workspace is
prepared, the sync is clean, but the dependency-install step fails: the
install commands are run with `check=True`, so the run aborts with a
non-zero exit and no posted report — contradicting the claim that the
process exits non-zero only when the PR cannot be resolved or the
workspace cannot be prepared. -/
theorem install_failure_aborts_run :
    installFailOracle.prOk = true ∧ installFailOracle.worktreeOk = true ∧
    mainRun installFailOracle = RunEnd.exitNonzero := by
  exact ⟨rfl, rfl, by decide⟩

/-- C8 (amended): the process exits non-zero when the PR cannot be
resolved, when the workspace cannot be prepared, when the sync-step
fetch fails, when a clean sync is followed by a failing dependency
install, or when the remediation client is importable without an API
key while a failure is being dispatched; in a run where the fetch
succeeds, the install succeeds and the remediation client does not kill
the process, all later failures are captured in the report and the
process exits zero after posting it, regardless of verification
outcome. -/
theorem exit_code_characterisation (o : Oracle) :
    (o.prOk = false → mainRun o = RunEnd.exitNonzero) ∧
    (o.worktreeOk = false → mainRun o = RunEnd.exitNonzero) ∧
    (o.prOk = true → o.worktreeOk = true →
      o.git GitCmd.fetchLeader = false → mainRun o = RunEnd.exitNonzero) ∧
    (o.prOk = true → o.worktreeOk = true → o.git GitCmd.fetchLeader = true →
      (o.git GitCmd.rebase = true ∨ o.git GitCmd.merge = true) →
      o.installOk = false → mainRun o = RunEnd.exitNonzero) ∧
    (o.prOk = true → o.worktreeOk = true → o.git GitCmd.fetchLeader = true →
      o.git GitCmd.rebase = false → o.git GitCmd.merge = false →
      o.jules = JulesDispatch.fatalNoApiKey →
      mainRun o = RunEnd.exitNonzero) ∧
    (o.prOk = true → o.worktreeOk = true → o.git GitCmd.fetchLeader = true →
      (o.git GitCmd.rebase = true ∨ o.git GitCmd.merge = true) →
      o.installOk = true → (run_checks o.exec).2.isSome = true →
      o.jules = JulesDispatch.fatalNoApiKey →
      mainRun o = RunEnd.exitNonzero) ∧
    (o.prOk = true → o.worktreeOk = true → o.git GitCmd.fetchLeader = true →
      o.installOk = true → o.jules ≠ JulesDispatch.fatalNoApiKey →
      isReported (mainRun o) = true) := by
  refine ⟨?_, ?_, ?_, ?_, ?_, ?_, ?_⟩
  · intro h; simp [mainRun, h]
  · intro h; cases hp : o.prOk with
    | false => simp [mainRun, hp]
    | true => simp [mainRun, hp, h]
  · intro hpr hwt hfe
    have ho : (rebase_and_push o.git).outcome = Except.error () := by
      simp [rebase_and_push, hfe]
    simp [mainRun, hpr, hwt, ho]
  · intro hpr hwt hfe hrm hin
    have ho : (rebase_and_push o.git).outcome = Except.ok true := by
      cases hr2 : o.git GitCmd.rebase with
      | true => simp [rebase_and_push, hfe, hr2]
      | false =>
        rcases hrm with hr3 | hm3
        · exact absurd hr3 (by simp [hr2])
        · simp [rebase_and_push, hfe, hr2, hm3]
    simp [mainRun, hpr, hwt, ho, hin]
  · intro hpr hwt hfe hr hm hj
    have ho : (rebase_and_push o.git).outcome = Except.ok false := by
      simp [rebase_and_push, hfe, hr, hm]
    have htr : trigger_jules_fix o.jules = Except.error () := by
      rw [hj]
      rfl
    simp [mainRun, hpr, hwt, ho, htr]
  · intro hpr hwt hfe hrm hin hsome hj
    have ho : (rebase_and_push o.git).outcome = Except.ok true := by
      cases hr2 : o.git GitCmd.rebase with
      | true => simp [rebase_and_push, hfe, hr2]
      | false =>
        rcases hrm with hr3 | hm3
        · exact absurd hr3 (by simp [hr2])
        · simp [rebase_and_push, hfe, hr2, hm3]
    have htr : trigger_jules_fix o.jules = Except.error () := by
      rw [hj]
      rfl
    rcases hrc : run_checks o.exec with ⟨results, fopt⟩
    cases fopt with
    | none => rw [hrc] at hsome; simp at hsome
    | some f => simp [mainRun, hpr, hwt, ho, hin, hrc, htr]
  · intro hpr hwt hfe hin hj
    exact mainRun_reaches_report o hpr hwt hfe hin hj

/-- C8 amended witness: the success direction applied to the
all-success oracle, the install-failure direction applied to the
failing-install oracle, and the missing-API-key direction applied to a
conflicting run whose remediation client has no key. -/
theorem exit_code_characterisation_witness :
    isReported (mainRun happyOracle) = true ∧
    mainRun installFailOracle = RunEnd.exitNonzero ∧
    mainRun fatalJulesOracle = RunEnd.exitNonzero := by
  refine ⟨?_, ?_, ?_⟩
  · exact (exit_code_characterisation happyOracle).2.2.2.2.2.2 rfl rfl rfl rfl
      (by decide)
  · exact (exit_code_characterisation installFailOracle).2.2.2.1 rfl rfl rfl
      (Or.inl rfl) rfl
  · exact (exit_code_characterisation fatalJulesOracle).2.2.2.2.1 rfl rfl rfl
      rfl rfl rfl
